import Mathlib

/-!
Verification of the core conversion engine of a parquet-to-table plugin
(`src/from_parquet.rs`): the mapping from decoded parquet field variants to
generic runtime values, the decimal normalization policy, and the row/document
assembler.

Machine integers are embedded as `Nat`/`Int` with explicit range conditions
where the source narrows; `f64` values are embedded by the exact rational they
denote, and the external libraries' fallible float reductions (`to_f64`) are
abstract parameters, since their code is not part of this repository.
-/

namespace FromParquet

/-- One byte, as appearing in parquet byte buffers and decimal payloads. -/
abbrev Byte := Fin 256

/-- Parquet `Decimal`: unscaled big-endian two's-complement signed bytes plus
an `i32` scale (`decimal.data()` and `decimal.scale()`). -/
structure PDecimal where
  data : List Byte
  scale : Int
deriving DecidableEq

/-- The parquet `Field` union consumed by `convert_to_nu`, with each Rust
machine-integer payload embedded at its mathematical value. -/
inductive PField where
  | null
  | bool (b : Bool)
  | byte (b : Int)
  | ubyte (b : Byte)
  | short (s : Int)
  | ushort (s : Nat)
  | int (i : Int)
  | uint (i : Nat)
  | long (l : Int)
  | ulong (l : Nat)
  | float (f : ℚ)
  | double (f : ℚ)
  | str (s : String)
  | bytes (bs : List Byte)
  | date (days : Int)
  | timestampMillis (ms : Int)
  | timestampMicros (us : Int)
  | decimal (d : PDecimal)
  | group (row : List (String × PField))
  | listInternal (elements : List PField)
  | mapInternal (entries : List (PField × PField))

/-- The only `ShellError` variant the conversion engine constructs:
`ShellError::CantConvert { to_type, from_type, help }` (the span payload is
purely diagnostic and is dropped from the embedding). -/
inductive ShellError where
  | cantConvert (to_type : String) (from_type : String) (help : Option String)
deriving DecidableEq

/-- The nushell `Value` variants the conversion engine produces. A `float`
carries the exact rational value of the `f64`; a `date` carries the instant as
nanoseconds relative to the canonical epoch `DateTime::default()`. -/
inductive Value where
  | nothing
  | bool (b : Bool)
  | int (i : Int)
  | float (f : ℚ)
  | string (s : String)
  | binary (bs : List Byte)
  | date (nanos : Int)
  | record (cols : List String) (vals : List Value)
  | list (vals : List Value)
  | error (e : ShellError)

/-- `FromParquetOpts` from the source, with both flags. -/
structure FromParquetOpts where
  extended_decimal : Bool
  rational : Bool
deriving DecidableEq

/-- `BigInt::from_signed_bytes_be`: interpret a big-endian two's-complement
byte string as a signed integer (empty input is zero). -/
def fromSignedBytesBE (bs : List Byte) : Int :=
  match bs with
  | [] => 0
  | b :: _ =>
    let u : Nat := bs.foldl (fun acc c => acc * 256 + c.val) 0
    if b.val < 128 then (u : Int) else (u : Int) - 2 ^ (8 * bs.length)

/-- Rust `as u32` on an `i32` value: reduce modulo `2^32`. -/
def asU32 (s : Int) : Nat := (s % 2 ^ 32).toNat

/-- A `BigDecimal` as built by `BigDecimal::new(int_val, scale)`: it denotes
`int_val * 10^(-scale)`. -/
structure BigDec where
  int_val : Int
  scale : Int
deriving DecidableEq

/-- `parquet_decimal_to_bigdecimal`: unscaled bytes to `BigInt`, then
`BigDecimal::new(unscaled_value, decimal.scale() as i64)`. -/
def parquet_decimal_to_bigdecimal (d : PDecimal) : BigDec :=
  { int_val := fromSignedBytesBE d.data, scale := d.scale }

/-- `parquet_decimal_to_bigrational`: unscaled bytes to `BigInt`, then
`BigRational::new(unscaled_value, 10^(decimal.scale() as u32))`, which reduces
to lowest terms with a positive denominator, exactly as `mkRat` does. -/
def parquet_decimal_to_bigrational (d : PDecimal) : ℚ :=
  mkRat (fromSignedBytesBE d.data) (10 ^ asU32 d.scale)

/-- `num_bigint::BigInt::to_i64`: succeeds exactly when the value fits in a
signed 64-bit integer. -/
def bigIntToI64 (n : Int) : Option Int :=
  if -(2 ^ 63) ≤ n ∧ n < 2 ^ 63 then some n else none

/-- The two fallible float reductions used by `parquet_decimal_to_value`:
`BigDecimal::to_f64` and `BigRational::to_f64`. Modelled from the spec: the
reduction "cannot produce a finite representable float" for some inputs, so
each is an abstract function into `Option` of the exact rational the resulting
`f64` denotes; their implementations live in external crates. -/
structure F64Conv where
  decToF64 : BigDec → Option ℚ
  ratToF64 : ℚ → Option ℚ

/-- `Option::map(Value::float).unwrap_or_else(Value::nothing)`. -/
def floatOrNothing : Option ℚ → Value
  | some f => Value.float f
  | none => Value.nothing

/-- `Option::map(Value::int).unwrap_or_else(Value::nothing)`. -/
def intOrNothing : Option Int → Value
  | some i => Value.int i
  | none => Value.nothing

/-- The integer part of the scaled-decimal rendering of `n` at scale `s`. -/
def decIntPart (n : Nat) (s : Nat) : Nat := n / 10 ^ s

/-- The fractional digits (as a number) of the scaled-decimal rendering. -/
def decFracPart (n : Nat) (s : Nat) : Nat := n % 10 ^ s

/-- Decimal digits of `m`, left-padded with zeros to `width` characters. -/
def leftPadZeros (width : Nat) (m : Nat) : String :=
  String.mk (List.replicate (width - (toString m).length) '0') ++ toString m

/-- Modelled from the spec: the `Display` rendering of a `BigDecimal` (the
external crate's code is not in this repository) — the "exact textual
rendering including scale-implied trailing zeros": sign, then the integer
part, then for a positive scale a point and exactly `scale` fractional
digits; a non-positive scale appends `-scale` zeros. -/
def bigDecimalToString (d : BigDec) : String :=
  let sign := if d.int_val < 0 then "-" else ""
  if d.scale ≤ 0 then
    sign ++ toString d.int_val.natAbs ++ String.mk (List.replicate (-d.scale).toNat '0')
  else
    sign ++ toString (decIntPart d.int_val.natAbs d.scale.toNat) ++ "." ++
      leftPadZeros d.scale.toNat (decFracPart d.int_val.natAbs d.scale.toNat)

/-- Modelled from the spec: the `Display` rendering of a `BigRational` (the
external crate's code is not in this repository) — the "exact rational
rendered as a string, lossless, e.g. \"numerator/denominator\"". -/
def bigRationalToString (q : ℚ) : String :=
  toString q.num ++ "/" ++ toString q.den

/-- `DECIMAL_HELP` from `parquet_decimal_to_value`. -/
def DECIMAL_HELP : String := "cannot convert decimal to float."

/-- `parquet_decimal_to_value`: decimal normalization with the two option
flags, parametric in the external float reductions `fl`. -/
def parquet_decimal_to_value (fl : F64Conv) (d : PDecimal)
    (opts : FromParquetOpts) : Value :=
  if opts.rational then
    let rational := parquet_decimal_to_bigrational d
    if opts.extended_decimal then
      Value.record ["value", "numerator", "denominator", "text"]
        [floatOrNothing (fl.ratToF64 rational),
         intOrNothing (bigIntToI64 rational.num),
         intOrNothing (bigIntToI64 (rational.den : Int)),
         Value.string (bigRationalToString rational)]
    else
      match fl.ratToF64 rational with
      | some f => Value.float f
      | none =>
        Value.error (ShellError.cantConvert "f64" "decimal" (some DECIMAL_HELP))
  else
    let decimal := parquet_decimal_to_bigdecimal d
    if opts.extended_decimal then
      Value.record ["value", "text"]
        [floatOrNothing (fl.decToF64 decimal),
         Value.string (bigDecimalToString decimal)]
    else
      match fl.decToF64 decimal with
      | some f => Value.float f
      | none =>
        Value.error (ShellError.cantConvert "f64" "decimal" (some DECIMAL_HELP))

/-- Rust `as u8` on an `i8` value: reduce modulo `2^8`. -/
def asU8 (b : Int) : Byte := ⟨(b % 256).toNat, by omega⟩

/-- `DateTime::default()`, the canonical epoch 1970-01-01T00:00:00+00:00,
as nanoseconds relative to itself. -/
def chronoDefaultEpoch : Int := 0

/-- `chrono::Duration::days`, in nanoseconds. -/
def durationDays (n : Int) : Int := n * 86400000000000

/-- `chrono::Duration::milliseconds`, in nanoseconds. -/
def durationMilliseconds (n : Int) : Int := n * 1000000

/-- `chrono::Duration::microseconds`, in nanoseconds. -/
def durationMicroseconds (n : Int) : Int := n * 1000

/-- The `Display` text of Rust's `TryFromIntError`, the narrowing failure's
description carried into the `help` field. -/
def tryFromIntErrorText : String := "out of range integral type conversion attempted"

mutual

/-- `convert_to_nu`: the total recursive converter from a parquet field to a
nushell value, parametric in the external float reductions `fl`. -/
def convert_to_nu (fl : F64Conv) (opts : FromParquetOpts) : PField → Value
  | .null => Value.nothing
  | .bool b => Value.bool b
  | .byte b => Value.binary [asU8 b]
  | .ubyte b => Value.binary [b]
  | .short s => Value.int s
  | .ushort s => Value.int s
  | .int i => Value.int i
  | .uint i => Value.int i
  | .long l => Value.int l
  | .ulong l =>
    if l < 2 ^ 63 then Value.int l
    else Value.error (ShellError.cantConvert "i64" "u64" (some tryFromIntErrorText))
  | .float f => Value.float f
  | .double f => Value.float f
  | .str s => Value.string s
  | .bytes bs => Value.binary bs
  | .date days => Value.date (chronoDefaultEpoch + durationDays days)
  | .timestampMillis ms => Value.date (chronoDefaultEpoch + durationMilliseconds ms)
  | .timestampMicros us => Value.date (chronoDefaultEpoch + durationMicroseconds us)
  | .decimal d => parquet_decimal_to_value fl d opts
  | .group row => convert_parquet_row_go fl opts row [] []
  | .listInternal elements => Value.list (convert_elements fl opts elements)
  | .mapInternal entries => Value.list (convert_entries fl opts entries)

/-- The `convert_parquet_row` loop: push each column name and each converted
field onto the two accumulators, in iteration order. -/
def convert_parquet_row_go (fl : F64Conv) (opts : FromParquetOpts) :
    List (String × PField) → List String → List Value → Value
  | [], cols, vals => Value.record cols vals
  | (name, field) :: rest, cols, vals =>
    convert_parquet_row_go fl opts rest (cols ++ [name])
      (vals ++ [convert_to_nu fl opts field])

/-- The `ListInternal` branch's element-by-element conversion. -/
def convert_elements (fl : F64Conv) (opts : FromParquetOpts) :
    List PField → List Value
  | [] => []
  | f :: fs => convert_to_nu fl opts f :: convert_elements fl opts fs

/-- The `MapInternal` branch's entry-by-entry conversion: each `(k, v)` entry
becomes the two-element list `[convert k, convert v]`. -/
def convert_entries (fl : F64Conv) (opts : FromParquetOpts) :
    List (PField × PField) → List Value
  | [] => []
  | (k, v) :: rest =>
    Value.list [convert_to_nu fl opts k, convert_to_nu fl opts v] ::
      convert_entries fl opts rest

end

/-- `convert_parquet_row`: convert one row's (name, field) columns into a
record, starting from empty accumulators. -/
def convert_parquet_row (fl : F64Conv) (opts : FromParquetOpts)
    (row : List (String × PField)) : Value :=
  convert_parquet_row_go fl opts row [] []

/-- `from_parquet_bytes`. Modelled from the spec for the external reader
collaborator (its code is not in this repository): `readerNew` stands for
`SerializedFileReader::new` and `rowIter` for `get_row_iter`, each of which
can fail; the source `unwrap`s both, so either failure aborts the whole call
with no output value at all, embedded as `none`. On success the row iterator
is drained in order and each row converted and appended. -/
def from_parquet_bytes {ρ : Type} (readerNew : List Byte → Option ρ)
    (rowIter : ρ → Option (List (List (String × PField))))
    (fl : F64Conv) (bytes : List Byte) (opts : FromParquetOpts) : Option Value :=
  match readerNew bytes with
  | none => none
  | some reader =>
    match rowIter reader with
    | none => none
    | some rows => some (Value.list (rows.map (convert_parquet_row fl opts)))

/-- The mathematical value denoted by the scaled-decimal text
`sign ++ intPart ++ "." ++ fracDigits` produced by `bigDecimalToString`: the
sign times (integer part plus fractional digits over `10^scale`); for a
non-positive scale, the digits followed by `-scale` zeros. -/
def scaledTextDenote (d : BigDec) : ℚ :=
  let sgn : ℚ := if d.int_val < 0 then -1 else 1
  if d.scale ≤ 0 then
    sgn * (d.int_val.natAbs : ℚ) * 10 ^ (-d.scale).toNat
  else
    sgn * ((decIntPart d.int_val.natAbs d.scale.toNat : ℚ) +
      (decFracPart d.int_val.natAbs d.scale.toNat : ℚ) / 10 ^ d.scale.toNat)

/-- The mathematical value denoted by the rational text `num ++ "/" ++ den`
produced by `bigRationalToString`. -/
def ratTextDenote (q : ℚ) : ℚ := (q.num : ℚ) / (q.den : ℚ)

/-- The column names of a record value (and `[]` on any other variant). -/
def recordCols : Value → List String
  | .record cols _ => cols
  | _ => []

/-- The column values of a record value (and `[]` on any other variant). -/
def recordVals : Value → List Value
  | .record _ vals => vals
  | _ => []

/-- The elements of a list value (and `[]` on any other variant). -/
def listVals : Value → List Value
  | .list vals => vals
  | _ => []

/-- A concrete float-reduction instance whose reductions always fail. -/
def f64None : F64Conv := ⟨fun _ => none, fun _ => none⟩

/-- A concrete float-reduction instance that reduces exactly: a `BigDecimal`
to `int_val / 10^scale` and a rational to itself. -/
def f64Exact : F64Conv :=
  ⟨fun d => some (mkRat d.int_val (10 ^ d.scale.toNat)), fun q => some q⟩

/-- The default options: both switches absent. -/
def optsDefault : FromParquetOpts := ⟨false, false⟩

/-- Whether a value is a record. -/
def isRecordValue : Value → Bool
  | .record _ _ => true
  | _ => false

/-- Whether a value is a list. -/
def isListValue : Value → Bool
  | .list _ => true
  | _ => false

/-- Whether a value is an error. -/
def isErrorValue : Value → Bool
  | .error _ => true
  | _ => false

/-- The target-type name carried by a conversion-error value, if any. -/
def errorToType : Value → Option String
  | .error (.cantConvert t _ _) => some t
  | _ => none

lemma convert_elements_eq_map (fl : F64Conv) (opts : FromParquetOpts)
    (l : List PField) :
    convert_elements fl opts l = l.map (convert_to_nu fl opts) := by
  induction l with
  | nil => simp [convert_elements]
  | cons f fs ih => simp [convert_elements, ih]

lemma convert_entries_eq_map (fl : F64Conv) (opts : FromParquetOpts)
    (m : List (PField × PField)) :
    convert_entries fl opts m =
      m.map fun kv => Value.list [convert_to_nu fl opts kv.1, convert_to_nu fl opts kv.2] := by
  induction m with
  | nil => simp [convert_entries]
  | cons kv rest ih =>
    obtain ⟨k, v⟩ := kv
    simp [convert_entries, ih]

lemma convert_parquet_row_go_eq (fl : F64Conv) (opts : FromParquetOpts)
    (row : List (String × PField)) (cols : List String) (vals : List Value) :
    convert_parquet_row_go fl opts row cols vals =
      Value.record (cols ++ row.map Prod.fst)
        (vals ++ row.map fun nf => convert_to_nu fl opts nf.2) := by
  induction row generalizing cols vals with
  | nil => simp [convert_parquet_row_go]
  | cons nf rest ih =>
    obtain ⟨name, field⟩ := nf
    simp [convert_parquet_row_go, ih]

/-- C1: for every ULong field, a value at most the maximum signed 64-bit
integer converts to exactly that Integer, and a larger value converts to an
Error of conversion kind from "u64" to "i64" whose message is the narrowing
failure's description. -/
theorem ulong_narrowing (fl : F64Conv) (opts : FromParquetOpts) (l : Nat) :
    (l ≤ 2 ^ 63 - 1 → convert_to_nu fl opts (.ulong l) = .int l) ∧
    (2 ^ 63 - 1 < l → convert_to_nu fl opts (.ulong l) =
      .error (.cantConvert "i64" "u64" (some tryFromIntErrorText))) := by
  refine ⟨fun h => ?_, fun h => ?_⟩
  · simp [convert_to_nu]
    omega
  · simp [convert_to_nu]
    omega

/-- Witness for C1, at value 5 (in range) and at `2^63` (out of range). -/
theorem ulong_narrowing_witness :
    convert_to_nu f64None optsDefault (.ulong 5) = .int 5 ∧
    convert_to_nu f64None optsDefault (.ulong (2 ^ 63)) =
      .error (.cantConvert "i64" "u64" (some tryFromIntErrorText)) :=
  ⟨(ulong_narrowing f64None optsDefault 5).1 (by norm_num),
   (ulong_narrowing f64None optsDefault (2 ^ 63)).2 (by norm_num)⟩

/-- C2 counterexample: with a failing float reduction under `extended=false`,
the emitted error names target type "f64", not "float" as the claim states. -/
theorem decimal_float_error_counterexample :
    parquet_decimal_to_value f64None ⟨[], 0⟩ optsDefault =
      Value.error (.cantConvert "f64" "decimal" (some DECIMAL_HELP)) ∧
    errorToType (parquet_decimal_to_value f64None ⟨[], 0⟩ optsDefault) =
      some "f64" ∧
    (("f64" : String) == "float") = false := by
  refine ⟨?_, ?_, by decide⟩ <;>
    simp [parquet_decimal_to_value, f64None, optsDefault, errorToType,
      parquet_decimal_to_bigdecimal]

/-- C2 (amended): for every Decimal field converted with `extended=false`, in
either mode, a failing float reduction yields an Error of conversion kind
naming source type "decimal" and target type "f64" with the fixed diagnostic
message, and a successful reduction yields exactly that Float. -/
theorem decimal_float_reduction (fl : F64Conv) (d : PDecimal)
    (opts : FromParquetOpts) (hx : opts.extended_decimal = false) :
    (opts.rational = true →
      (fl.ratToF64 (parquet_decimal_to_bigrational d) = none →
        parquet_decimal_to_value fl d opts =
          .error (.cantConvert "f64" "decimal" (some DECIMAL_HELP))) ∧
      (∀ f, fl.ratToF64 (parquet_decimal_to_bigrational d) = some f →
        parquet_decimal_to_value fl d opts = .float f)) ∧
    (opts.rational = false →
      (fl.decToF64 (parquet_decimal_to_bigdecimal d) = none →
        parquet_decimal_to_value fl d opts =
          .error (.cantConvert "f64" "decimal" (some DECIMAL_HELP))) ∧
      (∀ f, fl.decToF64 (parquet_decimal_to_bigdecimal d) = some f →
        parquet_decimal_to_value fl d opts = .float f)) := by
  refine ⟨fun hr => ⟨fun hn => ?_, fun f hf => ?_⟩,
          fun hr => ⟨fun hn => ?_, fun f hf => ?_⟩⟩ <;>
    simp [parquet_decimal_to_value, hx, hr, *]

/-- Witness for C2's amended theorem: both modes, both outcomes, at concrete
inputs. -/
theorem decimal_float_reduction_witness :
    parquet_decimal_to_value f64None ⟨[], 0⟩ optsDefault =
      .error (.cantConvert "f64" "decimal" (some DECIMAL_HELP)) ∧
    parquet_decimal_to_value f64None ⟨[], 0⟩ ⟨false, true⟩ =
      .error (.cantConvert "f64" "decimal" (some DECIMAL_HELP)) ∧
    parquet_decimal_to_value f64Exact ⟨[100], 2⟩ optsDefault = .float 1 ∧
    parquet_decimal_to_value f64Exact ⟨[100], 2⟩ ⟨false, true⟩ = .float 1 :=
  ⟨((decimal_float_reduction f64None ⟨[], 0⟩ optsDefault rfl).2 rfl).1 rfl,
   ((decimal_float_reduction f64None ⟨[], 0⟩ ⟨false, true⟩ rfl).1 rfl).1 rfl,
   ((decimal_float_reduction f64Exact ⟨[100], 2⟩ optsDefault rfl).2 rfl).2 1
     (by decide),
   ((decimal_float_reduction f64Exact ⟨[100], 2⟩ ⟨false, true⟩ rfl).1 rfl).2 1
     (by decide)⟩

/-- C3: for every Decimal field with non-negative scale, the value denoted by
the scaled-decimal mode text and the value denoted by the rational mode text
are the same mathematical rational number `unscaled * 10^(-scale)`. -/
theorem decimal_text_agreement (d : PDecimal) (h0 : 0 ≤ d.scale)
    (h32 : d.scale < 2 ^ 32) :
    scaledTextDenote (parquet_decimal_to_bigdecimal d) =
      (fromSignedBytesBE d.data : ℚ) / 10 ^ d.scale.toNat ∧
    ratTextDenote (parquet_decimal_to_bigrational d) =
      (fromSignedBytesBE d.data : ℚ) / 10 ^ d.scale.toNat := by
  have habs : ∀ u : Int, ((if u < 0 then (-1 : ℚ) else 1)) * (u.natAbs : ℚ) = (u : ℚ) := by
    intro u
    rcases lt_or_ge u 0 with h | h
    · simp [h, Int.cast_natAbs, abs_of_neg (show (u : ℚ) < 0 by exact_mod_cast h)]
    · simp [not_lt.2 h, Int.cast_natAbs, abs_of_nonneg (show (0 : ℚ) ≤ u by exact_mod_cast h)]
  constructor
  · unfold scaledTextDenote parquet_decimal_to_bigdecimal
    simp only
    by_cases hs : d.scale ≤ 0
    · have hz : d.scale = 0 := le_antisymm hs h0
      rw [hz]
      simp only [if_pos le_rfl]
      simpa using habs (fromSignedBytesBE d.data)
    · rw [if_neg hs]
      set u := fromSignedBytesBE d.data with hu
      set s := d.scale.toNat with hsdef
      have key : (decIntPart u.natAbs s : ℚ) + (decFracPart u.natAbs s : ℚ) / 10 ^ s =
          (u.natAbs : ℚ) / 10 ^ s := by
        have h10 : ((10 : ℚ) ^ s) ≠ 0 := by positivity
        rw [decIntPart, decFracPart]
        field_simp
        exact_mod_cast Nat.div_add_mod' u.natAbs (10 ^ s)
      rw [key, mul_div_assoc']
      rw [show ((if u < 0 then (-1:ℚ) else 1)) * (u.natAbs : ℚ) = (u : ℚ) from habs u]
  · unfold ratTextDenote parquet_decimal_to_bigrational
    have ha : asU32 d.scale = d.scale.toNat := by
      unfold asU32
      rw [Int.emod_eq_of_lt h0 h32]
    rw [ha, Rat.num_div_den, Rat.mkRat_eq_divInt, Rat.divInt_eq_div]
    push_cast
    ring

/-- Witness for C3 at the decimal with unscaled bytes `[100]` and scale 2. -/
theorem decimal_text_agreement_witness :
    (0 : Int) ≤ 2 ∧ (2 : Int) < 2 ^ 32 ∧
    (scaledTextDenote (parquet_decimal_to_bigdecimal ⟨[100], 2⟩) =
      (fromSignedBytesBE [100] : ℚ) / 10 ^ (2 : Int).toNat ∧
     ratTextDenote (parquet_decimal_to_bigrational ⟨[100], 2⟩) =
      (fromSignedBytesBE [100] : ℚ) / 10 ^ (2 : Int).toNat) :=
  ⟨by norm_num, by norm_num,
   decimal_text_agreement ⟨[100], 2⟩ (by norm_num) (by norm_num)⟩

/-- C4: Decimal(unscaled=100, scale=2) under `extended=true`, `rational=true`
converts to the record value=Float(1.0), numerator=Integer(1),
denominator=Integer(1), text="1/1". -/
theorem decimal_extended_rational_scenario (fl : F64Conv)
    (h : fl.ratToF64 1 = some 1) :
    parquet_decimal_to_value fl ⟨[100], 2⟩ ⟨true, true⟩ =
      .record ["value", "numerator", "denominator", "text"]
        [.float 1, .int 1, .int 1, .string "1/1"] := by
  have hq : parquet_decimal_to_bigrational ⟨[100], 2⟩ = 1 := by decide
  have ht : bigRationalToString 1 = "1/1" := by decide
  have hn : bigIntToI64 (1 : ℚ).num = some 1 := by decide
  have hd : bigIntToI64 ((1 : ℚ).den : Int) = some 1 := by decide
  have hb : bigIntToI64 1 = some 1 := by decide
  simp [parquet_decimal_to_value, hq, h, ht, hn, hd, hb, floatOrNothing, intOrNothing]

/-- Witness for C4, instantiating the float reduction with the exact one. -/
theorem decimal_extended_rational_scenario_witness :
    f64Exact.ratToF64 1 = some 1 ∧
    parquet_decimal_to_value f64Exact ⟨[100], 2⟩ ⟨true, true⟩ =
      .record ["value", "numerator", "denominator", "text"]
        [.float 1, .int 1, .int 1, .string "1/1"] :=
  ⟨rfl, decimal_extended_rational_scenario f64Exact rfl⟩

/-- C5: Decimal(unscaled=100, scale=2) under `extended=true`, `rational=false`
converts to the record value=Float(1.0), text="1.00", the text preserving the
scale-implied trailing zeros. -/
theorem decimal_extended_scaled_scenario (fl : F64Conv)
    (h : fl.decToF64 ⟨100, 2⟩ = some 1) :
    parquet_decimal_to_value fl ⟨[100], 2⟩ ⟨true, false⟩ =
      .record ["value", "text"] [.float 1, .string "1.00"] := by
  have hb : parquet_decimal_to_bigdecimal ⟨[100], 2⟩ = ⟨100, 2⟩ := by decide
  have ht : bigDecimalToString ⟨100, 2⟩ = "1.00" := by decide
  simp [parquet_decimal_to_value, hb, ht, h, floatOrNothing]

/-- Witness for C5, instantiating the float reduction with the exact one. -/
theorem decimal_extended_scaled_scenario_witness :
    f64Exact.decToF64 ⟨100, 2⟩ = some 1 ∧
    parquet_decimal_to_value f64Exact ⟨[100], 2⟩ ⟨true, false⟩ =
      .record ["value", "text"] [.float 1, .string "1.00"] :=
  ⟨by decide, decimal_extended_scaled_scenario f64Exact (by decide)⟩

/-- C6: Group, ListInternal and MapInternal fields preserve the exact
cardinality and order of their source: a group converts to a record with one
(name, value) pair per source column in column order, a list to one converted
element per source element in order, and a map to one entry per source entry
in order — and since every output component is itself `convert_to_nu` of the
corresponding source component, the same equations apply again at every
nesting depth. -/
theorem nested_structure_preserved (fl : F64Conv) (opts : FromParquetOpts) :
    (∀ row, convert_to_nu fl opts (.group row) =
      .record (row.map Prod.fst) (row.map fun nf => convert_to_nu fl opts nf.2)) ∧
    (∀ row, (recordCols (convert_to_nu fl opts (.group row))).length = row.length ∧
      (recordVals (convert_to_nu fl opts (.group row))).length = row.length) ∧
    (∀ elements, convert_to_nu fl opts (.listInternal elements) =
      .list (elements.map (convert_to_nu fl opts))) ∧
    (∀ elements,
      (listVals (convert_to_nu fl opts (.listInternal elements))).length = elements.length) ∧
    (∀ entries, convert_to_nu fl opts (.mapInternal entries) =
      .list (entries.map fun kv =>
        Value.list [convert_to_nu fl opts kv.1, convert_to_nu fl opts kv.2])) ∧
    (∀ entries,
      (listVals (convert_to_nu fl opts (.mapInternal entries))).length = entries.length) := by
  have hg : ∀ row, convert_to_nu fl opts (.group row) =
      .record (row.map Prod.fst) (row.map fun nf => convert_to_nu fl opts nf.2) := by
    intro row
    rw [show convert_to_nu fl opts (.group row) = convert_parquet_row_go fl opts row [] []
      from by simp [convert_to_nu]]
    simp [convert_parquet_row_go_eq]
  have hl : ∀ elements, convert_to_nu fl opts (.listInternal elements) =
      .list (elements.map (convert_to_nu fl opts)) := by
    intro elements
    simp [convert_to_nu, convert_elements_eq_map]
  have hm : ∀ entries, convert_to_nu fl opts (.mapInternal entries) =
      .list (entries.map fun kv =>
        Value.list [convert_to_nu fl opts kv.1, convert_to_nu fl opts kv.2]) := by
    intro entries
    simp [convert_to_nu, convert_entries_eq_map]
  refine ⟨hg, fun row => ?_, hl, fun elements => ?_, hm, fun entries => ?_⟩
  · rw [hg row]; simp [recordCols, recordVals]
  · rw [hl elements]; simp [listVals]
  · rw [hm entries]; simp [listVals]

/-- C7: every Date, TimestampMillis and TimestampMicros field converts to the
canonical zero-value reference instant plus N days, N milliseconds or N
microseconds respectively; all three kinds use that same epoch (they agree at
zero and under unit conversion). -/
theorem temporal_epoch_offsets (fl : F64Conv) (opts : FromParquetOpts) :
    (∀ n : Int,
      convert_to_nu fl opts (.date n) = .date (chronoDefaultEpoch + durationDays n) ∧
      convert_to_nu fl opts (.timestampMillis n) =
        .date (chronoDefaultEpoch + durationMilliseconds n) ∧
      convert_to_nu fl opts (.timestampMicros n) =
        .date (chronoDefaultEpoch + durationMicroseconds n)) ∧
    convert_to_nu fl opts (.date 0) = .date chronoDefaultEpoch ∧
    convert_to_nu fl opts (.timestampMillis 0) = .date chronoDefaultEpoch ∧
    convert_to_nu fl opts (.timestampMicros 0) = .date chronoDefaultEpoch ∧
    (∀ n : Int,
      convert_to_nu fl opts (.date n) =
        convert_to_nu fl opts (.timestampMillis (86400000 * n)) ∧
      convert_to_nu fl opts (.timestampMillis n) =
        convert_to_nu fl opts (.timestampMicros (1000 * n))) := by
  refine ⟨fun n => ⟨?_, ?_, ?_⟩, ?_, ?_, ?_, fun n => ⟨?_, ?_⟩⟩ <;>
    simp [convert_to_nu, chronoDefaultEpoch, durationDays, durationMilliseconds,
      durationMicroseconds] <;> ring

/-- C8: a MapInternal field converts to a List — not a Record — containing,
per source entry in entry order, the 2-element list of the converted key and
the converted value. -/
theorem map_entries_as_pair_lists (fl : F64Conv) (opts : FromParquetOpts)
    (entries : List (PField × PField)) :
    convert_to_nu fl opts (.mapInternal entries) =
      .list (entries.map fun kv =>
        Value.list [convert_to_nu fl opts kv.1, convert_to_nu fl opts kv.2]) ∧
    isListValue (convert_to_nu fl opts (.mapInternal entries)) = true ∧
    isRecordValue (convert_to_nu fl opts (.mapInternal entries)) = false := by
  have hm : convert_to_nu fl opts (.mapInternal entries) =
      .list (entries.map fun kv =>
        Value.list [convert_to_nu fl opts kv.1, convert_to_nu fl opts kv.2]) := by
    simp [convert_to_nu, convert_entries_eq_map]
  exact ⟨hm, by rw [hm]; rfl, by rw [hm]; rfl⟩

/-- C9: if the external reader cannot be opened or the row iterator cannot be
constructed, the whole document-conversion call returns no output value at all
(no partial list); when setup succeeds the call always returns the full
converted row list — per-field conversion failures are embedded values and
never abort the call. -/
theorem fatal_setup_vs_total_conversion {ρ : Type}
    (readerNew : List Byte → Option ρ)
    (rowIter : ρ → Option (List (List (String × PField))))
    (fl : F64Conv) (bytes : List Byte) (opts : FromParquetOpts) :
    (readerNew bytes = none →
      from_parquet_bytes readerNew rowIter fl bytes opts = none) ∧
    (∀ r, readerNew bytes = some r → rowIter r = none →
      from_parquet_bytes readerNew rowIter fl bytes opts = none) ∧
    (∀ r rows, readerNew bytes = some r → rowIter r = some rows →
      from_parquet_bytes readerNew rowIter fl bytes opts =
        some (Value.list (rows.map (convert_parquet_row fl opts)))) := by
  refine ⟨fun h => ?_, fun r h1 h2 => ?_, fun r rows h1 h2 => ?_⟩ <;>
    simp [from_parquet_bytes, *]

/-- Witness for C9: a failing open, a failing row iterator, and a successful
setup over one row, each at concrete inputs. -/
theorem fatal_setup_vs_total_conversion_witness :
    from_parquet_bytes (fun _ => (none : Option Unit)) (fun _ => some [])
      f64None [] optsDefault = none ∧
    from_parquet_bytes (fun _ => some ())
      (fun _ => (none : Option (List (List (String × PField)))))
      f64None [] optsDefault = none ∧
    from_parquet_bytes (fun _ => some ()) (fun _ => some [[("a", PField.int 5)]])
      f64None [] optsDefault =
      some (Value.list ([[("a", PField.int 5)]].map
        (convert_parquet_row f64None optsDefault))) :=
  ⟨(fatal_setup_vs_total_conversion _ _ f64None [] optsDefault).1 rfl,
   (fatal_setup_vs_total_conversion _ _ f64None [] optsDefault).2.1 () rfl rfl,
   (fatal_setup_vs_total_conversion _ _ f64None [] optsDefault).2.2 () _ rfl rfl⟩

/-- C10: with `extended=true`, in either mode, a Decimal always converts to a
Record and never to an Error-kind value: a failed float reduction puts Nothing
in the `value` field, and a numerator or denominator that overflows signed
64 bits puts Nothing in its field. -/
theorem decimal_extended_never_error (fl : F64Conv) (d : PDecimal)
    (opts : FromParquetOpts) (hx : opts.extended_decimal = true) :
    isRecordValue (parquet_decimal_to_value fl d opts) = true ∧
    isErrorValue (parquet_decimal_to_value fl d opts) = false ∧
    (opts.rational = true →
      parquet_decimal_to_value fl d opts =
        .record ["value", "numerator", "denominator", "text"]
          [floatOrNothing (fl.ratToF64 (parquet_decimal_to_bigrational d)),
           intOrNothing (bigIntToI64 (parquet_decimal_to_bigrational d).num),
           intOrNothing (bigIntToI64 ((parquet_decimal_to_bigrational d).den : Int)),
           .string (bigRationalToString (parquet_decimal_to_bigrational d))]) ∧
    (opts.rational = false →
      parquet_decimal_to_value fl d opts =
        .record ["value", "text"]
          [floatOrNothing (fl.decToF64 (parquet_decimal_to_bigdecimal d)),
           .string (bigDecimalToString (parquet_decimal_to_bigdecimal d))]) ∧
    (∀ o : Option ℚ, o = none → floatOrNothing o = Value.nothing) ∧
    (∀ n : Int, 2 ^ 63 ≤ n ∨ n < -(2 ^ 63) →
      intOrNothing (bigIntToI64 n) = Value.nothing) := by
  have hrec : (opts.rational = true →
      parquet_decimal_to_value fl d opts =
        .record ["value", "numerator", "denominator", "text"]
          [floatOrNothing (fl.ratToF64 (parquet_decimal_to_bigrational d)),
           intOrNothing (bigIntToI64 (parquet_decimal_to_bigrational d).num),
           intOrNothing (bigIntToI64 ((parquet_decimal_to_bigrational d).den : Int)),
           .string (bigRationalToString (parquet_decimal_to_bigrational d))]) ∧
      (opts.rational = false →
      parquet_decimal_to_value fl d opts =
        .record ["value", "text"]
          [floatOrNothing (fl.decToF64 (parquet_decimal_to_bigdecimal d)),
           .string (bigDecimalToString (parquet_decimal_to_bigdecimal d))]) := by
    constructor <;> intro hr <;> simp [parquet_decimal_to_value, hx, hr]
  refine ⟨?_, ?_, hrec.1, hrec.2, ?_, ?_⟩
  · rcases Bool.eq_false_or_eq_true opts.rational with hr | hr
    · rw [hrec.1 hr]; rfl
    · rw [hrec.2 hr]; rfl
  · rcases Bool.eq_false_or_eq_true opts.rational with hr | hr
    · rw [hrec.1 hr]; rfl
    · rw [hrec.2 hr]; rfl
  · intro o ho; rw [ho]; rfl
  · intro n hn
    have : bigIntToI64 n = none := by
      unfold bigIntToI64
      rw [if_neg]
      push_neg
      intro h1
      omega
    rw [this]; rfl

/-- Witness for C10 at the empty-payload decimal under both modes. -/
theorem decimal_extended_never_error_witness :
    isRecordValue (parquet_decimal_to_value f64None ⟨[], 0⟩ ⟨true, true⟩) = true ∧
    isErrorValue (parquet_decimal_to_value f64None ⟨[], 0⟩ ⟨true, false⟩) = false :=
  ⟨(decimal_extended_never_error f64None ⟨[], 0⟩ ⟨true, true⟩ rfl).1,
   (decimal_extended_never_error f64None ⟨[], 0⟩ ⟨true, false⟩ rfl).2.1⟩

end FromParquet
